import Mathlib

/-!
Verification model of the goscript VM core, shallowly embedding:
  * the metadata/type system of src/vm/src/metadata.rs (descriptors,
    pointer indirection, `semantic_eq`, `zero_val`/`default_val`),
  * the runtime objects of src/vm/src/objects.rs (slices, maps, arrays,
    structs, packages) over an explicit heap of shared allocations, and
  * the bytecode emitter of src/codegen/src/emit.rs.
Arena keys and heap addresses are Nats; `Rc<RefCell<...>>` allocations are
entries of an explicit heap list; fallible/panicking code returns Option
(`none` models a panic, a dangling reference or exhausted recursion fuel).
-/

namespace Goscript

/-! ## Metadata descriptors (src/vm/src/metadata.rs) -/

/-- MetaCategory (metadata.rs:94). The source's `Type` variant is `TypeCat`
here because `Type` is reserved in Lean. -/
inductive MetaCategory where
  | Default
  | Array
  | TypeCat
  | ArrayType
deriving DecidableEq, Repr

/-- GosMetadata (metadata.rs:102): an arena key plus a pointer-indirection
depth of 0 (`NonPtr`) through 7 (`Ptr7`), or `Untyped`. -/
inductive GosMetadata where
  | Untyped
  | NonPtr (k : Nat) (c : MetaCategory)
  | Ptr1 (k : Nat) (c : MetaCategory)
  | Ptr2 (k : Nat) (c : MetaCategory)
  | Ptr3 (k : Nat) (c : MetaCategory)
  | Ptr4 (k : Nat) (c : MetaCategory)
  | Ptr5 (k : Nat) (c : MetaCategory)
  | Ptr6 (k : Nat) (c : MetaCategory)
  | Ptr7 (k : Nat) (c : MetaCategory)
deriving DecidableEq, Repr

/-- GosMetadata::ptr_to (metadata.rs:202): raise indirection by one.
`none` models the `unreachable!()` on `Untyped` and on depth 7. -/
def GosMetadata.ptr_to : GosMetadata → Option GosMetadata
  | .Untyped => none
  | .NonPtr k t => some (.Ptr1 k t)
  | .Ptr1 k t => some (.Ptr2 k t)
  | .Ptr2 k t => some (.Ptr3 k t)
  | .Ptr3 k t => some (.Ptr4 k t)
  | .Ptr4 k t => some (.Ptr5 k t)
  | .Ptr5 k t => some (.Ptr6 k t)
  | .Ptr6 k t => some (.Ptr7 k t)
  | .Ptr7 _ _ => none

/-- GosMetadata::unptr_to (metadata.rs:221): lower indirection by one.
`none` models the `unreachable!()` on `Untyped` and on depth 0. -/
def GosMetadata.unptr_to : GosMetadata → Option GosMetadata
  | .Untyped => none
  | .NonPtr _ _ => none
  | .Ptr1 k t => some (.NonPtr k t)
  | .Ptr2 k t => some (.Ptr1 k t)
  | .Ptr3 k t => some (.Ptr2 k t)
  | .Ptr4 k t => some (.Ptr3 k t)
  | .Ptr5 k t => some (.Ptr4 k t)
  | .Ptr6 k t => some (.Ptr5 k t)
  | .Ptr7 k t => some (.Ptr6 k t)

/-- Pointer-indirection depth of a descriptor (0 for `NonPtr`, i for `Ptri`);
`none` for `Untyped`. -/
def GosMetadata.depth : GosMetadata → Option Nat
  | .Untyped => none
  | .NonPtr _ _ => some 0
  | .Ptr1 _ _ => some 1
  | .Ptr2 _ _ => some 2
  | .Ptr3 _ _ => some 3
  | .Ptr4 _ _ => some 4
  | .Ptr5 _ _ => some 5
  | .Ptr6 _ _ => some 6
  | .Ptr7 _ _ => some 7

/-! ## Runtime values and the heap of shared allocations

`GosValue` (value.rs, a collaborator file not among the staged sources) is
modelled from the spec's data model: primitives carried by value, composites
as addresses of reference-counted allocations, `Named` as a boxed underlying
value plus its descriptor. Float/complex payloads are exact rationals; the
staged code only ever constructs `0.0` for them. -/

abbrev Addr := Nat

/-- RuntimeValue (spec section 3; value.rs is not staged). Composite variants
hold the address of their shared allocation on the heap below. -/
inductive GosValue where
  | Nil (m : GosMetadata)
  | Bool (b : Bool)
  | Int (n : Int)
  | Int8 (n : Int)
  | Int16 (n : Int)
  | Int32 (n : Int)
  | Int64 (n : Int)
  | Uint (n : Nat)
  | Uint8 (n : Nat)
  | Uint16 (n : Nat)
  | Uint32 (n : Nat)
  | Uint64 (n : Nat)
  | Float32 (r : Rat)
  | Float64 (r : Rat)
  | Complex64 (re im : Rat)
  | Complex128 (re im : Rat)
  | Str (s : String)
  | Struct (a : Addr)
  | Array (a : Addr)
  | Slice (a : Addr)
  | Map (a : Addr)
  | Named (v : GosValue) (m : GosMetadata)
  | Metadata (m : GosMetadata)
deriving DecidableEq, Repr

/-- One shared (`Rc`-owned) allocation. `HVec` is an `Rc<RefCell<GosVec>>`
backing buffer; `HSliceObj`/`HArrayObj`/`HMapObj` are the `Rc<(Obj, RCount)>`
cells of objects.rs, pointing at their buffer by address; `HStruct` is an
`Rc<RefCell<StructObj>>`; `HTable` an `Rc<RefCell<GosHashMap>>` as an
association list. -/
inductive HeapObj where
  | HVec (elems : List GosValue)
  | HStruct (meta : GosMetadata) (fields : List GosValue)
  | HSliceObj (meta : GosMetadata) (begin_ end_ softCap : Nat) (vec : Option Addr)
  | HArrayObj (meta : GosMetadata) (vec : Addr)
  | HMapObj (meta : GosMetadata) (defaultVal : GosValue) (table : Option Addr)
  | HTable (entries : List (GosValue × GosValue))
deriving DecidableEq, Repr

abbrev Heap := List HeapObj

/-- Allocate a fresh shared cell (a new `Rc`): its address is the next free
one. -/
def alloc (h : Heap) (o : HeapObj) : Addr × Heap := (h.length, h ++ [o])

/-! ## Metadata definitions (the arena's entries) -/

/-- ChannelType (metadata.rs:17). -/
inductive ChannelType where
  | Send
  | Recv
  | SendRecv
deriving DecidableEq, Repr

/-- MethodDesc (metadata.rs:590); FunctionKey is a Nat here. -/
structure MethodDesc where
  pointer_recv : Bool
  func : Option Nat
deriving DecidableEq, Repr

/-- Methods (metadata.rs:596). -/
structure Methods where
  members : List MethodDesc
  mapping : List (String × Int)
deriving DecidableEq, Repr

/-- Fields (metadata.rs:537): ordered field descriptors plus the name-to-slot
map (an association list here). -/
structure Fields where
  fields : List GosMetadata
  mapping : List (String × Int)
deriving DecidableEq, Repr

/-- SigMetadata (metadata.rs:611). The FFI-only `params_type` cache is not
modelled (it is never read by the staged code paths). -/
structure SigMetadata where
  recv : Option GosMetadata
  params : List GosMetadata
  results : List GosMetadata
  variadic : Option (GosMetadata × GosMetadata)
deriving DecidableEq, Repr

/-- MetadataType (metadata.rs:681): the closed variant set of type
definitions stored in the arena. -/
inductive MetadataType where
  | Bool
  | Int
  | Int8
  | Int16
  | Int32
  | Int64
  | Uint
  | Uint8
  | Uint16
  | Uint32
  | Uint64
  | Float32
  | Float64
  | Complex64
  | Complex128
  | Str (s : GosValue)
  | SliceOrArray (elem : GosMetadata) (size : Nat)
  | Struct (f : Fields) (zero : GosValue)
  | Signature (s : SigMetadata)
  | Map (k v : GosMetadata)
  | Interface (f : Fields)
  | Channel (t : ChannelType) (elem : GosMetadata)
  | Named (m : Methods) (underlying : GosMetadata)
deriving DecidableEq, Repr

/-- MetadataObjs (objects.rs:36): the append-only arena of type definitions,
indexed by key. -/
abbrev Arena := List MetadataType

/-! ## semantic_eq (metadata.rs:493-533, 576-587, 643-678, 740-781)

The Rust recursion walks the arena and can diverge on cyclic definitions, so
each function takes fuel; `none` means no verdict (fuel exhausted, or a
panic/dangling key on the corresponding Rust path). Every clause below is a
line-for-line translation of the source, including its quirks. -/

mutual

/-- GosMetadata::semantic_eq (metadata.rs:493): equal indirection depth, then
compare key/category via `semantic_eq_impl`. -/
def GosMetadata.semantic_eq : Nat → Arena → GosMetadata → GosMetadata → Option Bool
  | 0, _, _, _ => none
  | n+1, A, a, b =>
    match a, b with
    | .NonPtr ak ac, .NonPtr bk bc => GosMetadata.semantic_eq_impl n A ak ac bk bc
    | .Ptr1 ak ac, .Ptr1 bk bc => GosMetadata.semantic_eq_impl n A ak ac bk bc
    | .Ptr2 ak ac, .Ptr2 bk bc => GosMetadata.semantic_eq_impl n A ak ac bk bc
    | .Ptr3 ak ac, .Ptr3 bk bc => GosMetadata.semantic_eq_impl n A ak ac bk bc
    | .Ptr4 ak ac, .Ptr4 bk bc => GosMetadata.semantic_eq_impl n A ak ac bk bc
    | .Ptr5 ak ac, .Ptr5 bk bc => GosMetadata.semantic_eq_impl n A ak ac bk bc
    | .Ptr6 ak ac, .Ptr6 bk bc => GosMetadata.semantic_eq_impl n A ak ac bk bc
    | .Ptr7 ak ac, .Ptr7 bk bc => GosMetadata.semantic_eq_impl n A ak ac bk bc
    | .Untyped, .Untyped => some true
    | _, _ => some false

/-- GosMetadata::semantic_eq_impl (metadata.rs:525): same category, and same
key or recursively matching definitions. -/
def GosMetadata.semantic_eq_impl :
    Nat → Arena → Nat → MetaCategory → Nat → MetaCategory → Option Bool
  | 0, _, _, _, _, _ => none
  | n+1, A, ak, ac, bk, bc =>
    if ac = bc then
      if ak = bk then some true
      else
        match A[ak]?, A[bk]? with
        | some ta, some tb => MetadataType.semantic_eq n A ta tb ac
        | _, _ => none
    else some false

/-- MetadataType::semantic_eq (metadata.rs:740). Faithful to the source: the
primitive arm list there has no `(Uint, Uint)` case (while every other
scalar, `Uint8`..`Uint64` included, has one), so a `Uint`-vs-`Uint` pair
falls through to the catch-all `false`. -/
def MetadataType.semantic_eq :
    Nat → Arena → MetadataType → MetadataType → MetaCategory → Option Bool
  | 0, _, _, _, _ => none
  | n+1, A, ta, tb, mc =>
    match ta, tb with
    | .Bool, .Bool => some true
    | .Int, .Int => some true
    | .Int8, .Int8 => some true
    | .Int16, .Int16 => some true
    | .Int32, .Int32 => some true
    | .Int64, .Int64 => some true
    | .Uint8, .Uint8 => some true
    | .Uint16, .Uint16 => some true
    | .Uint32, .Uint32 => some true
    | .Uint64, .Uint64 => some true
    | .Float32, .Float32 => some true
    | .Float64, .Float64 => some true
    | .Complex64, .Complex64 => some true
    | .Complex128, .Complex128 => some true
    | .Str _, .Str _ => some true
    | .Struct a _, .Struct b _ => Fields.semantic_eq n A a b
    | .Signature a, .Signature b => SigMetadata.semantic_eq n A a b
    | .SliceOrArray a sa, .SliceOrArray b sb =>
      (match mc with
       | .Array | .ArrayType =>
         if sa ≠ sb then some false else GosMetadata.semantic_eq n A a b
       | _ => GosMetadata.semantic_eq n A a b)
    | .Map ak av, .Map bk bv =>
      (match GosMetadata.semantic_eq n A ak bk with
       | some true => GosMetadata.semantic_eq n A av bv
       | r => r)
    | .Interface a, .Interface b => Fields.semantic_eq n A a b
    | .Channel ta2 tav, .Channel tb2 tbv =>
      if ta2 = tb2 then GosMetadata.semantic_eq n A tav tbv else some false
    | .Named _ a, .Named _ b => GosMetadata.semantic_eq n A a b
    | _, _ => some false

/-- Fields::semantic_eq (metadata.rs:576): same length, then pointwise. -/
def Fields.semantic_eq : Nat → Arena → Fields → Fields → Option Bool
  | 0, _, _, _ => none
  | n+1, A, f1, f2 =>
    if f1.fields.length ≠ f2.fields.length then some false
    else gm_list_eq n A f1.fields f2.fields

/-- The elementwise loops of Fields::semantic_eq and SigMetadata::semantic_eq:
walk `xs`, indexing the other side positionally; running past the other
side's length is the Rust index-out-of-bounds panic (`none`). -/
def gm_list_eq : Nat → Arena → List GosMetadata → List GosMetadata → Option Bool
  | 0, _, _, _ => none
  | _+1, _, [], _ => some true
  | n+1, A, x :: xs, ys =>
    match ys with
    | [] => none
    | y :: ytl =>
      match GosMetadata.semantic_eq n A x y with
      | some true => gm_list_eq n A xs ytl
      | some false => some false
      | none => none

/-- SigMetadata::semantic_eq (metadata.rs:643). Faithful to the source: the
guard before the result-list loop compares `self.results.len()` against
`other.params.len()` (metadata.rs:661), not against `other.results.len()`. -/
def SigMetadata.semantic_eq : Nat → Arena → SigMetadata → SigMetadata → Option Bool
  | 0, _, _, _ => none
  | n+1, A, s, o =>
    match
      (match s.recv, o.recv with
       | none, none => some true
       | some a, some b => GosMetadata.semantic_eq n A a b
       | _, _ => some false) with
    | none => none
    | some false => some false
    | some true =>
      if s.params.length ≠ o.params.length then some false
      else
        match gm_list_eq n A s.params o.params with
        | none => none
        | some false => some false
        | some true =>
          if s.results.length ≠ o.params.length then some false
          else
            match gm_list_eq n A s.results o.results with
            | none => none
            | some false => some false
            | some true =>
              match s.variadic, o.variadic with
              | none, none => some true
              | some (a, _), some (b, _) => GosMetadata.semantic_eq n A a b
              | _, _ => some false

end

/-! ## deep_clone (objects.rs:203-223, 350-360, 511-526, 731-736)

`GosValue::deep_clone` itself lives in value.rs (not staged); it is modelled
from the spec — "Every composite exposes `deep_clone` ... `deep_clone` of an
immutable primitive equals the original" — as: primitives (and nil/metadata
values) clone to themselves, and each composite dispatches to the
corresponding `deep_clone` of objects.rs, translated clause by clause below,
wrapping the result in a fresh allocation. -/

mutual

/-- Deep clone of one value. Composite branches translate
StructObj::deep_clone (objects.rs:731), ArrayObj::deep_clone (350),
SliceObj::deep_clone (511) — including its `begin: 0, end: self.cap(),
soft_cap: self.cap()` header and its `vec.borrow()[begin..end]` window
slice, which panics (`none`) if the window exceeds the backing buffer —
and MapObj::deep_clone (203), whose `default_val` is copied as the same
value (the Rust `RefCell::clone` shallow-clones the inner value). -/
def deep_clone : Nat → Heap → GosValue → Option (GosValue × Heap)
  | 0, _, _ => none
  | n+1, h, v =>
    match v with
    | .Struct a =>
      (match h[a]? with
       | some (.HStruct m fields) =>
         (match deep_clone_list n h fields with
          | some (fields', h1) =>
            let r := alloc h1 (.HStruct m fields')
            some (.Struct r.1, r.2)
          | none => none)
       | _ => none)
    | .Array a =>
      (match h[a]? with
       | some (.HArrayObj m va) =>
         (match h[va]? with
          | some (.HVec elems) =>
            (match deep_clone_list n h elems with
             | some (elems', h1) =>
               let rv := alloc h1 (.HVec elems')
               let ra := alloc rv.2 (.HArrayObj m rv.1)
               some (.Array ra.1, ra.2)
             | none => none)
          | _ => none)
       | _ => none)
    | .Slice a =>
      (match h[a]? with
       | some (.HSliceObj m b e c ov) =>
         (match ov with
          | none =>
            let r := alloc h (.HSliceObj m 0 (c - b) (c - b) none)
            some (.Slice r.1, r.2)
          | some va =>
            (match h[va]? with
             | some (.HVec elems) =>
               if b ≤ e ∧ e ≤ elems.length then
                 (match deep_clone_list n h ((elems.drop b).take (e - b)) with
                  | some (win', h1) =>
                    let rv := alloc h1 (.HVec win')
                    let ra := alloc rv.2 (.HSliceObj m 0 (c - b) (c - b) (some rv.1))
                    some (.Slice ra.1, ra.2)
                  | none => none)
               else none
             | _ => none))
       | _ => none)
    | .Map a =>
      (match h[a]? with
       | some (.HMapObj m d ot) =>
         (match ot with
          | none =>
            let r := alloc h (.HMapObj m d none)
            some (.Map r.1, r.2)
          | some ta =>
            (match h[ta]? with
             | some (.HTable entries) =>
               (match deep_clone_pairs n h entries with
                | some (entries', h1) =>
                  let rt := alloc h1 (.HTable entries')
                  let ra := alloc rt.2 (.HMapObj m d (some rt.1))
                  some (.Map ra.1, ra.2)
                | none => none)
             | _ => none))
       | _ => none)
    | .Named inner m =>
      (match deep_clone n h inner with
       | some (inner', h1) => some (.Named inner' m, h1)
       | none => none)
    | prim => some (prim, h)

/-- Deep clone of each element of a buffer, left to right, threading the
heap. -/
def deep_clone_list : Nat → Heap → List GosValue → Option (List GosValue × Heap)
  | 0, _, _ => none
  | _+1, h, [] => some ([], h)
  | n+1, h, v :: vs =>
    match deep_clone n h v with
    | some (v', h1) =>
      (match deep_clone_list n h1 vs with
       | some (vs', h2) => some (v' :: vs', h2)
       | none => none)
    | none => none

/-- Deep clone of each (key, value) entry of a map table
(MapObj::deep_clone's iterator body, objects.rs:209-214). -/
def deep_clone_pairs :
    Nat → Heap → List (GosValue × GosValue) → Option (List (GosValue × GosValue) × Heap)
  | 0, _, _ => none
  | _+1, h, [] => some ([], h)
  | n+1, h, (k, v) :: ps =>
    match deep_clone n h k with
    | some (k', h1) =>
      (match deep_clone n h1 v with
       | some (v', h2) =>
         (match deep_clone_pairs n h2 ps with
          | some (ps', h3) => some ((k', v') :: ps', h3)
          | none => none)
       | none => none)
    | none => none

end

/-- Whether a value is one of the immutable by-value primitives (no heap
allocation behind it). -/
def isPrimitive : GosValue → Bool
  | .Struct _ | .Array _ | .Slice _ | .Map _ | .Named _ _ => false
  | _ => true

/-! ## Mutations of shared composites

The mutating operations of objects.rs, applied to a composite value:
`SliceObj::set` (objects.rs:602), element write through
`ArrayObj::borrow_data_mut` (368), field write through a struct's
`RefCell`, and `MapObj::insert` (226). Out-of-bounds writes model the
Rust indexing panic as `none`. -/

/-- Association-list update with HashMap::insert semantics: an existing
key keeps its stored key and position, its value is replaced; a new key is
appended. -/
def hashInsert {α β : Type} [DecidableEq α] : List (α × β) → α → β → List (α × β)
  | [], k, v => [(k, v)]
  | (k', v') :: rest, k, v =>
    if k' = k then (k', v) :: rest else (k', v') :: hashInsert rest k v

/-- Association-list lookup with HashMap::get semantics. -/
def hashGet {α β : Type} [DecidableEq α] : List (α × β) → α → Option β
  | [], _ => none
  | (k', v') :: rest, k => if k' = k then some v' else hashGet rest k

/-- Write index `idx` of the backing buffer at address `va`. -/
def setVecAt (h : Heap) (va : Addr) (idx : Nat) (val : GosValue) : Option Heap :=
  match h[va]? with
  | some (.HVec elems) =>
    if idx < elems.length then some (h.set va (.HVec (elems.set idx val))) else none
  | _ => none

/-- One mutation step on a composite: set a slice element, set an array
element, set a struct field, or insert a map entry. -/
inductive Mutation where
  | sliceSet (i : Nat) (val : GosValue)
  | arraySet (i : Nat) (val : GosValue)
  | structSetField (i : Nat) (val : GosValue)
  | mapInsert (k v : GosValue)

/-- Apply a mutation to a composite value: `none` models the Rust panic
(kind mismatch, nil backing, or an out-of-bounds index). -/
def applyMut : Mutation → GosValue → Heap → Option Heap
  | .sliceSet i val, .Slice a, h =>
    (match h[a]? with
     | some (.HSliceObj _ b _ _ (some va)) => setVecAt h va (b + i) val
     | _ => none)
  | .arraySet i val, .Array a, h =>
    (match h[a]? with
     | some (.HArrayObj _ va) => setVecAt h va i val
     | _ => none)
  | .structSetField i val, .Struct a, h =>
    (match h[a]? with
     | some (.HStruct m fields) =>
       if i < fields.length then some (h.set a (.HStruct m (fields.set i val))) else none
     | _ => none)
  | .mapInsert k v, .Map a, h =>
    (match h[a]? with
     | some (.HMapObj _ _ (some ta)) =>
       (match h[ta]? with
        | some (.HTable entries) => some (h.set ta (.HTable (hashInsert entries k v)))
        | _ => none)
     | _ => none)
  | _, _, _ => none

/-! ## Observable contents: deep read-back of a value -/

/-- The observable contents of a value: the full tree of primitive payloads,
window bounds and entries reachable from it through the heap. -/
inductive PureV where
  | prim (v : GosValue)
  | pStruct (fields : List PureV)
  | pArray (elems : List PureV)
  | pSlice (begin_ end_ softCap : Nat) (elems : Option (List PureV))
  | pMap (dflt : PureV) (entries : Option (List (PureV × PureV)))
  | pNamed (inner : PureV)

mutual

/-- Deep read of a value's observable contents from the heap; `none` on a
dangling address or exhausted fuel. -/
def readBack : Nat → Heap → GosValue → Option PureV
  | 0, _, _ => none
  | n+1, h, v =>
    match v with
    | .Struct a =>
      (match h[a]? with
       | some (.HStruct _ fields) => (readBackList n h fields).map .pStruct
       | _ => none)
    | .Array a =>
      (match h[a]? with
       | some (.HArrayObj _ va) =>
         (match h[va]? with
          | some (.HVec elems) => (readBackList n h elems).map .pArray
          | _ => none)
       | _ => none)
    | .Slice a =>
      (match h[a]? with
       | some (.HSliceObj _ b e c ov) =>
         (match ov with
          | none => some (.pSlice b e c none)
          | some va =>
            (match h[va]? with
             | some (.HVec elems) =>
               (readBackList n h elems).map (fun l => .pSlice b e c (some l))
             | _ => none))
       | _ => none)
    | .Map a =>
      (match h[a]? with
       | some (.HMapObj _ d ot) =>
         (match readBack n h d with
          | some d' =>
            (match ot with
             | none => some (.pMap d' none)
             | some ta =>
               (match h[ta]? with
                | some (.HTable entries) =>
                  (readBackPairs n h entries).map (fun l => .pMap d' (some l))
                | _ => none))
          | none => none)
       | _ => none)
    | .Named inner _ => (readBack n h inner).map .pNamed
    | prim => some (.prim prim)

def readBackList : Nat → Heap → List GosValue → Option (List PureV)
  | 0, _, _ => none
  | _+1, _, [] => some []
  | n+1, h, v :: vs =>
    match readBack n h v with
    | some p =>
      (match readBackList n h vs with
       | some ps => some (p :: ps)
       | none => none)
    | none => none

def readBackPairs : Nat → Heap → List (GosValue × GosValue) → Option (List (PureV × PureV))
  | 0, _, _ => none
  | _+1, _, [] => some []
  | n+1, h, (k, v) :: ps =>
    match readBack n h k with
    | some pk =>
      (match readBack n h v with
       | some pv =>
         (match readBackPairs n h ps with
          | some pps => some ((pk, pv) :: pps)
          | none => none)
       | none => none)
    | none => none

end

/-! ## Closedness: every reachable address is a live allocation -/

/-- All addresses a value holds directly (through `Named` boxes) are below
`n`. -/
def valClosed (n : Nat) : GosValue → Bool
  | .Struct a | .Array a | .Slice a | .Map a => decide (a < n)
  | .Named inner _ => valClosed n inner
  | _ => true

/-- All addresses a heap object holds are below `n`. -/
def objClosed (n : Nat) : HeapObj → Bool
  | .HVec elems => elems.all (valClosed n)
  | .HStruct _ fields => fields.all (valClosed n)
  | .HSliceObj _ _ _ _ ov => ov.all (fun va => decide (va < n))
  | .HArrayObj _ va => decide (va < n)
  | .HMapObj _ d ot => valClosed n d && ot.all (fun ta => decide (ta < n))
  | .HTable entries => entries.all (fun p => valClosed n p.1 && valClosed n p.2)

/-- Every allocation of the heap only references allocations of the heap. -/
def heapClosed (h : Heap) : Bool := h.all (objClosed h.length)

/-- The allocations a mutation can write through — a composite's own cell
and its backing buffer/table — lie at or past `nl` (they are fresh relative
to a heap of length `nl`). -/
def cloneFresh (nl : Nat) (h : Heap) : GosValue → Prop
  | .Struct a => nl ≤ a
  | .Array a => nl ≤ a ∧ ∀ m va, h[a]? = some (.HArrayObj m va) → nl ≤ va
  | .Slice a =>
      nl ≤ a ∧ ∀ m b e c va, h[a]? = some (.HSliceObj m b e c (some va)) → nl ≤ va
  | .Map a => nl ≤ a ∧ ∀ m d ta, h[a]? = some (.HMapObj m d (some ta)) → nl ≤ ta
  | _ => True

/-! ## MapObj operations (objects.rs:179-282)

A map value at address `a` is an `HMapObj` holding the per-map default and
the address of its shared table; a nil map has no table and all accessors
through `borrow_data` panic on it (`none`). HashMap key equality is the
(not staged) `GosValue` equality of value.rs, modelled as the structural
equality of the embedded values. -/

/-- MapObj::get (objects.rs:238): the stored value, or the configured
default on a miss. The receiver is `&self`: the heap comes back exactly as
it went in. -/
def MapObj.get (h : Heap) (a : Addr) (key : GosValue) : Option (GosValue × Heap) :=
  match h[a]? with
  | some (.HMapObj _ dflt (some ta)) =>
    (match h[ta]? with
     | some (.HTable entries) =>
       (match hashGet entries key with
        | some v => some (v, h)
        | none => some (dflt, h))
     | _ => none)
  | _ => none

/-- MapObj::try_get (objects.rs:248): the stored value when present. -/
def MapObj.try_get (h : Heap) (a : Addr) (key : GosValue) : Option (Option GosValue) :=
  match h[a]? with
  | some (.HMapObj _ _ (some ta)) =>
    (match h[ta]? with
     | some (.HTable entries) => some (hashGet entries key)
     | _ => none)
  | _ => none

/-- MapObj::touch_key (objects.rs:256): insert the default when the key is
absent, otherwise leave the table alone. -/
def MapObj.touch_key (h : Heap) (a : Addr) (key : GosValue) : Option Heap :=
  match h[a]? with
  | some (.HMapObj _ dflt (some ta)) =>
    (match h[ta]? with
     | some (.HTable entries) =>
       (match hashGet entries key with
        | some _ => some h
        | none => some (h.set ta (.HTable (hashInsert entries key dflt))))
     | _ => none)
  | _ => none

/-- MapObj::insert (objects.rs:226): store `val` under `key`, returning the
previous value if any. -/
def MapObj.insert (h : Heap) (a : Addr) (key val : GosValue) :
    Option (Option GosValue × Heap) :=
  match h[a]? with
  | some (.HMapObj _ _ (some ta)) =>
    (match h[ta]? with
     | some (.HTable entries) =>
       some (hashGet entries key, h.set ta (.HTable (hashInsert entries key val)))
     | _ => none)
  | _ => none

/-- MapObj::len (objects.rs:264). -/
def MapObj.len (h : Heap) (a : Addr) : Option Nat :=
  match h[a]? with
  | some (.HMapObj _ _ (some ta)) =>
    (match h[ta]? with
     | some (.HTable entries) => some entries.length
     | _ => none)
  | _ => none

/-! ## Heap-side slice accessors (objects.rs:528-604) -/

/-- SliceObj::get (objects.rs:595) on a heap-allocated slice: `None` when
`begin + i` runs past the backing buffer (the Rust `.get` miss), and a
panic (`none` outer) on a nil slice. -/
def sliceGetH (h : Heap) (a : Addr) (i : Nat) : Option (Option GosValue) :=
  match h[a]? with
  | some (.HSliceObj _ b _ _ (some va)) =>
    (match h[va]? with
     | some (.HVec elems) => some (elems[b + i]?)
     | _ => none)
  | _ => none

/-- SliceObj::len (objects.rs:549): `end - begin`. -/
def sliceLenH (h : Heap) (a : Addr) : Option Nat :=
  match h[a]? with
  | some (.HSliceObj _ b e _ _) => some (e - b)
  | _ => none

/-- SliceObj::is_nil (objects.rs:529): no backing buffer. -/
def sliceIsNilH (h : Heap) (a : Addr) : Option Bool :=
  match h[a]? with
  | some (.HSliceObj _ _ _ _ ov) => some ov.isNone
  | _ => none

/-! ## SliceObj as a standalone record (objects.rs:437-657)

For `push`/`append`/`grow_vec`/`slice`, where sharing is not at issue, the
slice is translated directly: the window header plus the backing buffer's
element list (`none` = nil slice). -/

structure SliceObjM where
  meta : GosMetadata
  begin_ : Nat
  end_ : Nat
  soft_cap : Nat
  vec : Option (List GosValue)
deriving DecidableEq, Repr

namespace SliceObjM

/-- SliceObj::len (objects.rs:549). -/
def len (s : SliceObjM) : Nat := s.end_ - s.begin_

/-- SliceObj::cap (objects.rs:554). -/
def cap (s : SliceObjM) : Nat := s.soft_cap - s.begin_

/-- SliceObj::get (objects.rs:595). -/
def get (s : SliceObjM) (i : Nat) : Option GosValue :=
  match s.vec with
  | some elems => elems[s.begin_ + i]?
  | none => none

/-- SliceObj::new (objects.rs:447): `len` copies of the default value,
asserting `cap >= len`; the Rust `default_val.unwrap()` panics when a
nonzero `len` comes with no default. -/
def new (len cap : Nat) (meta : GosMetadata) (default_val : Option GosValue) :
    Option SliceObjM :=
  if cap < len then none
  else
    match len, default_val with
    | 0, _ => some { meta, begin_ := 0, end_ := 0, soft_cap := cap, vec := some [] }
    | Nat.succ l, some d =>
      some { meta, begin_ := 0, end_ := Nat.succ l, soft_cap := cap,
             vec := some (List.replicate (Nat.succ l) d) }
    | Nat.succ _, none => none

/-- SliceObj::with_data (objects.rs:467). -/
def with_data (val : List GosValue) (meta : GosMetadata) : SliceObjM :=
  { meta, begin_ := 0, end_ := val.length, soft_cap := val.length, vec := some val }

/-- SliceObj::new_nil (objects.rs:494). -/
def new_nil (meta : GosMetadata) : SliceObjM :=
  { meta, begin_ := 0, end_ := 0, soft_cap := 0, vec := none }

/-- The growth loop of SliceObj::grow_vec (objects.rs:641-648): double below
1024, else multiply by 1.25. The Rust `(cap as f32 * 1.25) as usize` is
modelled as `cap * 5 / 4` (exact for every capacity below the f32 mantissa
limit; the theorems below only exercise the doubling branch). `none` is the
loop failing to terminate within `fuel` iterations. -/
def growCapLoop (fuel cap len : Nat) : Option Nat :=
  if cap < len then
    match fuel with
    | 0 => none
    | n+1 => growCapLoop n (if cap < 1024 then cap * 2 else cap * 5 / 4) len
  else some cap

/-- SliceObj::grow_vec (objects.rs:640): grow the capacity, re-derive the
buffer from the visible window `vec[begin..end]` (a Rust slice, panicking
if the window exceeds the buffer), reset `begin` to 0. -/
def grow_vec (fuel : Nat) (s : SliceObjM) (cap len : Nat) : Option SliceObjM :=
  match growCapLoop fuel cap len with
  | none => none
  | some newCap =>
    (match s.vec with
     | none => none
     | some elems =>
       if s.begin_ ≤ s.end_ ∧ s.end_ ≤ elems.length then
         some { meta := s.meta, begin_ := 0, end_ := s.len, soft_cap := newCap,
                vec := some ((elems.drop s.begin_).take (s.end_ - s.begin_)) }
       else none)

/-- SliceObj::try_grow_vec (objects.rs:631): `assert!(cap >= self.len())`,
return unchanged when capacity suffices, else grow. -/
def try_grow_vec (fuel : Nat) (s : SliceObjM) (len : Nat) : Option SliceObjM :=
  let cap := s.cap
  if cap < s.len then none
  else if len ≤ cap then some s
  else grow_vec fuel s cap len

/-- SliceObj::push (objects.rs:580): grow if needed, push onto the backing
buffer, bump `end`. -/
def push (fuel : Nat) (s : SliceObjM) (val : GosValue) : Option SliceObjM :=
  match try_grow_vec fuel s (s.len + 1) with
  | none => none
  | some s1 =>
    (match s1.vec with
     | none => none
     | some elems =>
       some { s1 with vec := some (elems ++ [val]), end_ := s1.end_ + 1 })

/-- SliceObj::append (objects.rs:587): grow if needed, append all values,
set `end := begin + new_len`. -/
def append (fuel : Nat) (s : SliceObjM) (vals : List GosValue) : Option SliceObjM :=
  let new_len := s.len + vals.length
  match try_grow_vec fuel s new_len with
  | none => none
  | some s1 =>
    (match s1.vec with
     | none => none
     | some elems =>
       some { s1 with vec := some (elems ++ vals), end_ := s1.begin_ + new_len })

end SliceObjM

/-! ## zero_val / default_val (metadata.rs:328-424)

The value constructors these call (`GosValue::new_slice`,
`GosValue::new_slice_nil`, `GosValue::new_map`, `GosValue::new_map_nil`,
`GosValue::array_with_size`, `GosValue::copy_semantic`) live in value.rs,
which is not staged; they are modelled from the spec: each wraps the
corresponding objects.rs constructor in a fresh reference-counted
allocation, and `copy_semantic` copies struct/array deeply, everything
else shallowly ("primitives/struct/array copy deep; slice/map/... copy
shallow"). -/

mutual

/-- Modelled from the spec: GosValue::copy_semantic (value.rs, not staged).
Struct and array copy into fresh allocations with fields copied
value-semantically; slices, maps and primitives copy shallowly. -/
def copy_semantic : Nat → Heap → GosValue → Option (GosValue × Heap)
  | 0, _, _ => none
  | n+1, h, v =>
    match v with
    | .Struct a =>
      (match h[a]? with
       | some (.HStruct m fields) =>
         (match copy_semantic_list n h fields with
          | some (fields', h1) =>
            let r := alloc h1 (.HStruct m fields')
            some (.Struct r.1, r.2)
          | none => none)
       | _ => none)
    | .Array a =>
      (match h[a]? with
       | some (.HArrayObj m va) =>
         (match h[va]? with
          | some (.HVec elems) =>
            (match copy_semantic_list n h elems with
             | some (elems', h1) =>
               let rv := alloc h1 (.HVec elems')
               let ra := alloc rv.2 (.HArrayObj m rv.1)
               some (.Array ra.1, ra.2)
             | none => none)
          | _ => none)
       | _ => none)
    | .Named inner m =>
      (match copy_semantic n h inner with
       | some (inner', h1) => some (.Named inner' m, h1)
       | none => none)
    | other => some (other, h)

def copy_semantic_list : Nat → Heap → List GosValue → Option (List GosValue × Heap)
  | 0, _, _ => none
  | _+1, h, [] => some ([], h)
  | n+1, h, v :: vs =>
    match copy_semantic n h v with
    | some (v', h1) =>
      (match copy_semantic_list n h1 vs with
       | some (vs', h2) => some (v' :: vs', h2)
       | none => none)
    | none => none

end

/-- `size` value-semantic copies of `val` (ArrayObj::with_size's loop,
objects.rs:330). -/
def copy_n (fuel : Nat) : Nat → Heap → GosValue → Option (List GosValue × Heap)
  | 0, h, _ => some ([], h)
  | s+1, h, v =>
    match copy_semantic fuel h v with
    | some (v', h1) =>
      (match copy_n fuel s h1 v with
       | some (vs, h2) => some (v' :: vs, h2)
       | none => none)
    | none => none

/-- Modelled from the spec: GosValue::array_with_size (value.rs, not
staged) wraps ArrayObj::with_size (objects.rs:330) — `size` value-semantic
copies of `val` — in fresh allocations. -/
def array_with_size (fuel size : Nat) (val : GosValue) (meta : GosMetadata) (h : Heap) :
    Option (GosValue × Heap) :=
  match copy_n fuel size h val with
  | some (elems, h1) =>
    let rv := alloc h1 (.HVec elems)
    let ra := alloc rv.2 (.HArrayObj meta rv.1)
    some (.Array ra.1, ra.2)
  | none => none

/-- Modelled from the spec: GosValue::new_slice_nil (value.rs, not staged)
wraps SliceObj::new_nil (objects.rs:494) in a fresh allocation. -/
def new_slice_nil (meta : GosMetadata) (h : Heap) : GosValue × Heap :=
  let r := alloc h (.HSliceObj meta 0 0 0 none)
  (.Slice r.1, r.2)

/-- Modelled from the spec: GosValue::new_slice (value.rs, not staged)
wraps SliceObj::new (objects.rs:447) — `len` copies of the default value in
a fresh buffer, asserting `cap >= len` — in fresh allocations. -/
def new_slice (len cap : Nat) (meta : GosMetadata) (default_val : Option GosValue)
    (h : Heap) : Option (GosValue × Heap) :=
  if cap < len then none
  else
    match len, default_val with
    | 0, _ =>
      let rv := alloc h (.HVec [])
      let ra := alloc rv.2 (.HSliceObj meta 0 0 cap (some rv.1))
      some (.Slice ra.1, ra.2)
    | Nat.succ l, some d =>
      let rv := alloc h (.HVec (List.replicate (Nat.succ l) d))
      let ra := alloc rv.2 (.HSliceObj meta 0 (Nat.succ l) cap (some rv.1))
      some (.Slice ra.1, ra.2)
    | Nat.succ _, none => none

/-- Modelled from the spec: GosValue::new_map_nil (value.rs, not staged)
wraps MapObj::new_nil (objects.rs:195) in a fresh allocation. -/
def new_map_nil (meta : GosMetadata) (dflt : GosValue) (h : Heap) : GosValue × Heap :=
  let r := alloc h (.HMapObj meta dflt none)
  (.Map r.1, r.2)

/-- Modelled from the spec: GosValue::new_map (value.rs, not staged) wraps
MapObj::new (objects.rs:187) — an empty table — in fresh allocations. -/
def new_map (meta : GosMetadata) (dflt : GosValue) (h : Heap) : GosValue × Heap :=
  let rt := alloc h (.HTable [])
  let ra := alloc rt.2 (.HMapObj meta dflt (some rt.1))
  (.Map ra.1, ra.2)

mutual

/-- GosMetadata::zero_val_impl (metadata.rs:334), clause by clause: `Nil`
for `Untyped` and raised-pointer descriptors; primitive zeros; the cached
string/struct templates; a nil slice for a slice descriptor; a nil map with
the element default; `Nil` for signature/interface/channel; the underlying
default boxed for named. `none` models a dangling key, an `unreachable!()`
or exhausted fuel. -/
def zero_val_impl (A : Arena) : Nat → GosMetadata → Heap → Option (GosValue × Heap)
  | 0, _, _ => none
  | n+1, m, h =>
    match m with
    | .Untyped => some (.Nil m, h)
    | .NonPtr k mc =>
      (match A[k]? with
       | none => none
       | some mt =>
         (match mt with
          | .Bool => some (.Bool false, h)
          | .Int => some (.Int 0, h)
          | .Int8 => some (.Int8 0, h)
          | .Int16 => some (.Int16 0, h)
          | .Int32 => some (.Int32 0, h)
          | .Int64 => some (.Int64 0, h)
          | .Uint => some (.Uint 0, h)
          | .Uint8 => some (.Uint8 0, h)
          | .Uint16 => some (.Uint16 0, h)
          | .Uint32 => some (.Uint32 0, h)
          | .Uint64 => some (.Uint64 0, h)
          | .Float32 => some (.Float32 0, h)
          | .Float64 => some (.Float64 0, h)
          | .Complex64 => some (.Complex64 0 0, h)
          | .Complex128 => some (.Complex128 0 0, h)
          | .Str s => some (s, h)
          | .SliceOrArray em size =>
            (match mc with
             | .Array =>
               (match default_val A n em h with
                | some (dv, h1) => array_with_size n size dv m h1
                | none => none)
             | .Default => some (new_slice_nil m h)
             | _ => none)
          | .Struct _ s => copy_semantic n h s
          | .Signature _ => some (.Nil m, h)
          | .Map _ vm =>
            (match default_val A n vm h with
             | some (dv, h1) => some (new_map_nil m dv h1)
             | none => none)
          | .Interface _ => some (.Nil m, h)
          | .Channel _ _ => some (.Nil m, h)
          | .Named _ gm =>
            (match default_val A n gm h with
             | some (dv, h1) => some (.Named dv gm, h1)
             | none => none)))
    | _ => some (.Nil m, h)

/-- GosMetadata::default_val (metadata.rs:380), clause by clause; it
differs from `zero_val_impl` in the slice arm (an empty non-nil slice), the
map arm (an empty non-nil map) and in panicking (`unreachable!()`) on
`Untyped` and raised-pointer descriptors. -/
def default_val (A : Arena) : Nat → GosMetadata → Heap → Option (GosValue × Heap)
  | 0, _, _ => none
  | n+1, m, h =>
    match m with
    | .NonPtr k mc =>
      (match A[k]? with
       | none => none
       | some mt =>
         (match mt with
          | .Bool => some (.Bool false, h)
          | .Int => some (.Int 0, h)
          | .Int8 => some (.Int8 0, h)
          | .Int16 => some (.Int16 0, h)
          | .Int32 => some (.Int32 0, h)
          | .Int64 => some (.Int64 0, h)
          | .Uint => some (.Uint 0, h)
          | .Uint8 => some (.Uint8 0, h)
          | .Uint16 => some (.Uint16 0, h)
          | .Uint32 => some (.Uint32 0, h)
          | .Uint64 => some (.Uint64 0, h)
          | .Float32 => some (.Float32 0, h)
          | .Float64 => some (.Float64 0, h)
          | .Complex64 => some (.Complex64 0 0, h)
          | .Complex128 => some (.Complex128 0 0, h)
          | .Str s => some (s, h)
          | .SliceOrArray em size =>
            (match mc with
             | .Array =>
               (match default_val A n em h with
                | some (dv, h1) => array_with_size n size dv m h1
                | none => none)
             | .Default => new_slice 0 0 m none h
             | _ => none)
          | .Struct _ s => copy_semantic n h s
          | .Signature _ => some (.Nil m, h)
          | .Map _ vm =>
            (match default_val A n vm h with
             | some (dv, h1) => some (new_map m dv h1)
             | none => none)
          | .Interface _ => some (.Nil m, h)
          | .Channel _ _ => some (.Nil m, h)
          | .Named _ gm =>
            (match default_val A n gm h with
             | some (dv, h1) => some (.Named dv gm, h1)
             | none => none)))
    | _ => none

end

/-- GosMetadata::zero_val (metadata.rs:329): the public wrapper over
`zero_val_impl`. -/
def GosMetadata.zero_val (m : GosMetadata) (A : Arena) (fuel : Nat) (h : Heap) :
    Option (GosValue × Heap) :=
  zero_val_impl A fuel m h

/-! ## PackageVal (objects.rs:1364-1429)

Members are `Rc<RefCell<GosValue>>` cells; only their contents matter here,
so they are a plain list. `member_indices` and `var_mapping` are the two
hash maps, as association lists. -/

structure PackageVal where
  name : String
  members : List GosValue
  member_indices : List (String × Int)
  var_mapping : Option (List (Int × Int))
deriving DecidableEq, Repr

namespace PackageVal

/-- PackageVal::new (objects.rs:1374): empty containers, and a live (Some)
constructor-to-variable mapping. -/
def new (name : String) : PackageVal :=
  { name, members := [], member_indices := [], var_mapping := some [] }

/-- PackageVal::add_member (objects.rs:1383): append the member, bind the
name to its slot, return the slot. -/
def add_member (p : PackageVal) (name : String) (val : GosValue) : PackageVal × Int :=
  let members := p.members ++ [val]
  let index : Int := (members.length : Int) - 1
  ({ p with members := members,
            member_indices := hashInsert p.member_indices name index }, index)

/-- PackageVal::add_var_mapping (objects.rs:1390): record which constructor
slot initializes which member slot; the two `unwrap()`s (unknown name,
mapping already discarded) panic (`none`). -/
def add_var_mapping (p : PackageVal) (name : String) (fn_index : Int) :
    Option (PackageVal × Int) :=
  match hashGet p.member_indices name with
  | none => none
  | some index =>
    (match p.var_mapping with
     | none => none
     | some vm =>
       some ({ p with var_mapping := some (hashInsert vm fn_index index) }, index))

/-- PackageVal::inited (objects.rs:1412): the mapping has been discarded. -/
def inited (p : PackageVal) : Bool := p.var_mapping.isNone

/-- PackageVal::set_inited (objects.rs:1416): discard the mapping. -/
def set_inited (p : PackageVal) : PackageVal := { p with var_mapping := none }

/-- A write through PackageVal::member_mut / var_mut (objects.rs:1399,
1426): replace a member cell's contents. -/
def member_set (p : PackageVal) (i : Nat) (val : GosValue) : Option PackageVal :=
  if i < p.members.length then some { p with members := p.members.set i val }
  else none

end PackageVal

/-- The operations the compiler performs on a package container after
construction. -/
inductive PkgOp where
  | addMember (name : String) (val : GosValue)
  | addVarMapping (name : String) (fnIndex : Int)
  | setInited
  | setMember (i : Nat) (val : GosValue)

/-- One package operation as a state step; `none` = the operation
panicked. -/
def pkgStep (op : PkgOp) (p : PackageVal) : Option PackageVal :=
  match op with
  | .addMember n v => some (p.add_member n v).1
  | .addVarMapping n i => (p.add_var_mapping n i).map Prod.fst
  | .setInited => some p.set_inited
  | .setMember i v => p.member_set i v

/-! ## Bytecode emitter (src/codegen/src/emit.rs)

The `Instruction` type and its packing helpers live in instruction.rs,
which is not staged; they are modelled from the spec's encoding contract
("one opcode; up to three independently-present operand type tags; one
signed immediate ... an escape to a following raw 64-bit word") as a record
of those components, with `set_imm824`/`set_t2_with_index` as plain field
writes and the raw word as its own variant. -/

/-- The opcodes emit.rs mentions (instruction.rs itself is not staged). -/
inductive OpcodeM where
  | STORE_LOCAL
  | STORE_UPVALUE
  | STORE_PKG_FIELD
  | STORE_INDEX
  | STORE_INDEX_IMM
  | STORE_STRUCT_FIELD
  | STORE_DEREF
  | CAST
  | LOAD_LOCAL
  | LOAD_UPVALUE
  | LOAD_PKG_FIELD
  | LOAD_INDEX
  | LOAD_INDEX_IMM
  | LOAD_STRUCT_FIELD
  | IMPORT_PKG
  | JUMP_IF_NOT
  | PRE_CALL
  | CALL
  | RETURN
  | POP
  | PUSH_CONST
  | PUSH_IMM
  | PUSH_TRUE
  | PUSH_FALSE
  | LITERAL
  | ADD
  | SHL
  | SHR
deriving DecidableEq, Repr

/-- The operand type tags emit.rs mentions (instruction.rs is not staged);
`Zero`/`FlagA`/`FlagB` double as small enum flags per the spec. -/
inductive ValueTypeM where
  | Zero
  | FlagA
  | FlagB
  | Bool
  | Int
  | Uint32
  | Str
  | Closure
  | Package
  | Metadata
  | Slice
  | Map
  | Struct
  | Pointer
deriving DecidableEq, Repr

/-- Modelled from the spec: Instruction (instruction.rs, not staged) — an
opcode, up to three operand type tags, the packed immediates, or the raw
64-bit escape word. -/
inductive InstructionM where
  | inst (op : OpcodeM) (t0 t1 t2 : Option ValueTypeM) (imm : Option Int)
         (t2Index : Option Int) (imm824 : Option (Int × Int))
  | rawWord (u : Int)
deriving DecidableEq, Repr

/-- Instruction::new. -/
def InstructionM.new (op : OpcodeM) (t0 t1 t2 : Option ValueTypeM)
    (imm : Option Int) : InstructionM :=
  .inst op t0 t1 t2 imm none none

/-- Instruction::set_t2_with_index: store a small index in the third tag
slot. -/
def InstructionM.set_t2_with_index : InstructionM → Int → InstructionM
  | .inst op t0 t1 t2 imm _ p, i => .inst op t0 t1 t2 imm (some i) p
  | .rawWord u, _ => .rawWord u

/-- Instruction::set_imm824: pack the two immediates. -/
def InstructionM.set_imm824 : InstructionM → Int → Int → InstructionM
  | .inst op t0 t1 t2 imm t2i _, imm0, int32 => .inst op t0 t1 t2 imm t2i (some (imm0, int32))
  | .rawWord u, _, _ => .rawWord u

/-- Modelled from the spec: Instruction::code2index (instruction.rs, not
staged) — the opcode folded into an immediate slot; any injection serves. -/
def code2index : OpcodeM → Int
  | .STORE_LOCAL => 0
  | .STORE_UPVALUE => 1
  | .STORE_PKG_FIELD => 2
  | .STORE_INDEX => 3
  | .STORE_INDEX_IMM => 4
  | .STORE_STRUCT_FIELD => 5
  | .STORE_DEREF => 6
  | .CAST => 7
  | .LOAD_LOCAL => 8
  | .LOAD_UPVALUE => 9
  | .LOAD_PKG_FIELD => 10
  | .LOAD_INDEX => 11
  | .LOAD_INDEX_IMM => 12
  | .LOAD_STRUCT_FIELD => 13
  | .IMPORT_PKG => 14
  | .JUMP_IF_NOT => 15
  | .PRE_CALL => 16
  | .CALL => 17
  | .RETURN => 18
  | .POP => 19
  | .PUSH_CONST => 20
  | .PUSH_IMM => 21
  | .PUSH_TRUE => 22
  | .PUSH_FALSE => 23
  | .LITERAL => 24
  | .ADD => 25
  | .SHL => 26
  | .SHR => 27

/-- key_to_u64 (objects.rs:40) on a model key. -/
def key_to_u64 (k : Nat) : Int := (k : Int)

/-- The code/position streams of FunctionVal (objects.rs:1469) that the
emitter appends to. -/
structure FunctionValM where
  code : List InstructionM
  pos : List (Option Nat)
deriving DecidableEq, Repr

/-- FunctionVal::push_inst_pos (objects.rs:1575). -/
def FunctionValM.push_inst_pos (f : FunctionValM) (i : InstructionM)
    (p : Option Nat) : FunctionValM :=
  { code := f.code ++ [i], pos := f.pos ++ [p] }

/-- FunctionVal::emit_raw_inst (objects.rs:1593). -/
def FunctionValM.emit_raw_inst (f : FunctionValM) (u : Int) (p : Option Nat) :
    FunctionValM :=
  { code := f.code ++ [.rawWord u], pos := f.pos ++ [p] }

/-- EntIndex (objects.rs:1436). -/
inductive EntIndexM where
  | Const (i : Int)
  | LocalVar (i : Int)
  | UpValue (i : Int)
  | PackageMember (pkg : Nat) (ident : Nat)
  | BuiltInVal (op : OpcodeM)
  | BuiltInType (m : GosMetadata)
  | Blank
deriving DecidableEq, Repr

/-- IndexSelType (emit.rs:19). -/
inductive IndexSelType where
  | Indexing
  | StructField
deriving DecidableEq, Repr

/-- IndexSelInfo (emit.rs:25); the `i8` index is an Int here. -/
structure IndexSelInfo where
  index : Int
  imm_index : Option Int
  t1 : ValueTypeM
  t2 : Option ValueTypeM
  typ : IndexSelType
deriving DecidableEq, Repr

/-- LeftHandSide (emit.rs:70). -/
inductive LeftHandSide where
  | Primitive (e : EntIndexM)
  | IndexSelExpr (info : IndexSelInfo)
  | Deref (i : Int)
deriving DecidableEq, Repr

/-- PkgVarPairs (codegen's package.rs, not staged): the deferred
cross-package patch list, each pair (pkg, ident, func, code offset,
is_store). -/
abbrev PkgVarPairs := List (Nat × Nat × Nat × Nat × Bool)

/-- PkgVarPairs::add_pair. -/
def addPair (ps : PkgVarPairs) (pkg ident func offset : Nat) (isStore : Bool) :
    PkgVarPairs :=
  ps ++ [(pkg, ident, func, offset, isStore)]

/-- Emitter::emit_cast (emit.rs:252). -/
def emit_cast (f : FunctionValM) (t0 t1 : ValueTypeM) (t2 : Option ValueTypeM)
    (rhs m_index : Int) (p : Option Nat) : FunctionValM :=
  f.push_inst_pos ((InstructionM.new .CAST (some t0) (some t1) t2 none).set_imm824 rhs m_index) p

/-- Emitter::emit_store (emit.rs:166), translated clause by clause: the
blank-target early return; the per-target opcode/operand selection (with
the `unreachable!()` arms as `none`); the optional compound-assign opcode
folded into the immediate, emitting the auxiliary zero-producing CAST first
when a shift must smuggle the right operand's type; and the trailing raw
package-key word plus patch-pair registration for package members.
Returns the updated function and (when patch info was supplied) the updated
patch list; `none` models a panic. -/
def emit_store (f : FunctionValM) (lhs : LeftHandSide) (rhs_index : Int)
    (op : Option (OpcodeM × Option ValueTypeM))
    (patch_info : Option (PkgVarPairs × Nat)) (typ : ValueTypeM)
    (p : Option Nat) : Option (FunctionValM × Option PkgVarPairs) :=
  match lhs with
  | .Primitive .Blank => some (f, patch_info.map Prod.fst)
  | _ =>
    let sel : Option ((OpcodeM × Int × Option ValueTypeM × Option ValueTypeM × Option Int) ×
                      Option (Nat × Nat)) :=
      match lhs with
      | .Primitive idx =>
        (match idx with
         | .Const _ => none
         | .LocalVar i => some ((.STORE_LOCAL, i, none, none, none), none)
         | .UpValue i => some ((.STORE_UPVALUE, i, none, none, none), none)
         | .PackageMember pkg ident =>
           some ((.STORE_PKG_FIELD, 0, some .Package, none, none), some (pkg, ident))
         | .BuiltInVal _ => none
         | .BuiltInType _ => none
         | .Blank => none)
      | .IndexSelExpr info =>
        (match info.typ with
         | .Indexing =>
           (match info.imm_index with
            | some i => some ((.STORE_INDEX_IMM, i, some info.t1, none, some info.index), none)
            | none => some ((.STORE_INDEX, info.index, some info.t1, info.t2, none), none))
         | .StructField =>
           (match info.imm_index with
            | some i => some ((.STORE_STRUCT_FIELD, i, some info.t1, none, some info.index), none)
            | none => none))
      | .Deref i => some ((.STORE_DEREF, i, none, none, none), none)
    match sel with
    | none => none
    | some ((code, int32, t1, t2, int8), pkg_info) =>
      let inst0 := InstructionM.new code (some typ) t1 t2 none
      let inst1 :=
        match int8 with
        | some i => inst0.set_t2_with_index i
        | none => inst0
      if rhs_index = -1 ∨ op.isNone then
        let step : FunctionValM × Int :=
          match op with
          | none => (f, rhs_index)
          | some (opcode, shift_t) =>
            ((match shift_t with
              | some t => emit_cast f .Uint32 t none (-1) 0 p
              | none => f),
             code2index opcode)
        let inst2 := inst1.set_imm824 step.2 int32
        let f2 := step.1.push_inst_pos inst2 p
        match pkg_info with
        | some (pkg, ident) =>
          let f3 := f2.emit_raw_inst (key_to_u64 pkg) p
          (match patch_info with
           | some (pairs, func) =>
             some (f3, some (addPair pairs pkg ident func (f3.code.length - 2) true))
           | none => none)
        | none => some (f2, patch_info.map Prod.fst)
      else none

/-! ## Concrete instances used by the evaluation theorems and witnesses -/

/-- A signature ([int]) -> (int). -/
def sigOneResult : SigMetadata :=
  { recv := none, params := [.NonPtr 0 .Default], results := [.NonPtr 0 .Default],
    variadic := none }

/-- A signature ([int]) -> (int, int). -/
def sigTwoResults : SigMetadata :=
  { recv := none, params := [.NonPtr 0 .Default],
    results := [.NonPtr 0 .Default, .NonPtr 0 .Default], variadic := none }

/-- Arena interning int (key 0) and the two signatures (keys 1, 2). -/
def arenaSig : Arena := [.Int, .Signature sigOneResult, .Signature sigTwoResults]

/-- Arena interning `uint` twice (keys 0, 1), `int` twice (keys 2, 3), and
four one-field structs: keys 4, 5 with a `uint` field each (under the two
distinct `uint` keys), keys 6, 7 with an `int` field each (under the two
distinct `int` keys). -/
def arenaStructs : Arena :=
  [.Uint, .Uint, .Int, .Int,
   .Struct { fields := [.NonPtr 0 .Default], mapping := [("x", 0)] } (.Nil .Untyped),
   .Struct { fields := [.NonPtr 1 .Default], mapping := [("x", 0)] } (.Nil .Untyped),
   .Struct { fields := [.NonPtr 2 .Default], mapping := [("x", 0)] } (.Nil .Untyped),
   .Struct { fields := [.NonPtr 3 .Default], mapping := [("x", 0)] } (.Nil .Untyped)]

/-- A heap with one struct allocation holding a single int field. -/
def heapOneStruct : Heap := [.HStruct .Untyped [.Int 1]]

/-- `heapOneStruct` after deep-cloning `Struct 0` (the clone lives at
address 1). -/
def heapOneStruct' : Heap := [.HStruct .Untyped [.Int 1], .HStruct .Untyped [.Int 1]]

/-- `heapOneStruct'` after setting field 0 of the clone to 42. -/
def heapOneStruct'' : Heap := [.HStruct .Untyped [.Int 1], .HStruct .Untyped [.Int 42]]

/-- A heap with one non-nil map (default value 0, table at address 1, one
stored entry 5 -> 6). -/
def heapOneMap : Heap :=
  [.HMapObj .Untyped (.Int 0) (some 1), .HTable [(.Int 5, .Int 6)]]

/-- A slice of length 1 and capacity 3 over a 3-element backing buffer:
the window invariant holds for it. -/
def heapShortSlice : Heap :=
  [.HVec [.Int 1, .Int 2, .Int 3], .HSliceObj .Untyped 0 1 3 (some 0)]

/-- `heapShortSlice` after deep-cloning the slice at address 1: the fresh
buffer (address 2) holds the one visible element, yet the clone's header
(address 3) claims `end = soft_cap = 3`. -/
def heapShortSlice' : Heap :=
  [.HVec [.Int 1, .Int 2, .Int 3], .HSliceObj .Untyped 0 1 3 (some 0),
   .HVec [.Int 1], .HSliceObj .Untyped 0 3 3 (some 2)]

/-- The default empty slice: length 0, capacity 0, non-nil backing (what
`SliceObj::new(0, 0, ..)` builds). -/
def emptySliceCap0 : SliceObjM :=
  { meta := .Untyped, begin_ := 0, end_ := 0, soft_cap := 0, vec := some [] }

/-! # Theorems -/

/-- Looking up the key just written by `hashInsert` yields the written
value. -/
theorem hashGet_hashInsert {α β : Type} [DecidableEq α] (l : List (α × β)) (k : α) (v : β) :
    hashGet (hashInsert l k v) k = some v := by
  induction l with
  | nil => simp [hashInsert, hashGet]
  | cons p rest ih =>
    obtain ⟨k', v'⟩ := p
    by_cases hk : k' = k
    · simp [hashInsert, hashGet, hk]
    · simp [hashInsert, hashGet, hk, ih]

/-- Entries of a prefix are unchanged in the longer heap. -/
theorem prefix_get_eq {h h' : Heap} (hp : h <+: h') {a : Nat} (ha : a < h.length) :
    h'[a]? = h[a]? := by
  obtain ⟨t, rfl⟩ := hp
  exact List.getElem?_append_left ha

/-- C7: for every descriptor at indirection depth 0-6, `unptr_to` after
`ptr_to` is the identity; `ptr_to` at depth 7 and `unptr_to` at depth 0
reach the fatal branch. -/
theorem C7_indirection_raise_lower :
    (∀ (m : GosMetadata) (d : Nat), m.depth = some d → d ≤ 6 →
      ∃ p, m.ptr_to = some p ∧ p.unptr_to = some m) ∧
    (∀ m : GosMetadata, m.depth = some 7 → m.ptr_to = none) ∧
    (∀ m : GosMetadata, m.depth = some 0 → m.unptr_to = none) := by
  refine ⟨?_, ?_, ?_⟩
  · intro m d hd hle
    cases m <;>
      simp_all [GosMetadata.depth, GosMetadata.ptr_to, GosMetadata.unptr_to] <;>
      omega
  · intro m hd
    cases m <;> simp_all [GosMetadata.depth, GosMetadata.ptr_to]
  · intro m hd
    cases m <;> simp_all [GosMetadata.depth, GosMetadata.unptr_to]

/-- C7 witness: raising then lowering a depth-3 descriptor is the
identity. -/
theorem C7_indirection_raise_lower_witness :
    ∃ p, GosMetadata.ptr_to (.Ptr3 5 .Default) = some p ∧
      GosMetadata.unptr_to p = some (.Ptr3 5 .Default) :=
  C7_indirection_raise_lower.1 (.Ptr3 5 .Default) 3 rfl (by decide)

/-- C1, evaluated at the failing input: two signature descriptors, one with
result list `(int)` and the other with `(int, int)` (same parameter lists),
compare `true` one way and `false` the other, because
SigMetadata::semantic_eq guards its result-list loop with
`self.results.len() != other.params.len()` (metadata.rs:661). The claimed
symmetry of `semantic_eq` fails on this pair. -/
theorem C1_sig_semantic_eq_asymmetric :
    GosMetadata.semantic_eq 12 arenaSig (.NonPtr 1 .Default) (.NonPtr 2 .Default)
      = some true ∧
    GosMetadata.semantic_eq 12 arenaSig (.NonPtr 2 .Default) (.NonPtr 1 .Default)
      = some false :=
  ⟨rfl, rfl⟩

/-- C2, evaluated at the failing input: two struct descriptors interned
under distinct handles whose single fields are `int` definitions interned
under distinct handles compare `true`, but the same pair built over `uint`
fields compares `false`: MetadataType::semantic_eq (metadata.rs:742-755)
lists every primitive scalar pair except `(Uint, Uint)`, which falls
through to the catch-all `false`. -/
theorem C2_struct_uint_fields_unequal :
    GosMetadata.semantic_eq 12 arenaStructs (.NonPtr 6 .Default) (.NonPtr 7 .Default)
      = some true ∧
    GosMetadata.semantic_eq 12 arenaStructs (.NonPtr 4 .Default) (.NonPtr 5 .Default)
      = some false :=
  ⟨rfl, rfl⟩

/-- C3, evaluated at the failing input: a push past capacity on a slice of
capacity 0 (the default empty slice) never terminates — the growth loop of
grow_vec doubles `cap = 0` forever, so for every iteration budget the loop
(and hence the push) yields no result. -/
theorem C3_push_at_cap0_diverges :
    (∀ fuel : Nat, SliceObjM.growCapLoop fuel 0 1 = none) ∧
    (∀ (fuel : Nat) (val : GosValue), SliceObjM.push fuel emptySliceCap0 val = none) := by
  have hloop : ∀ fuel : Nat, SliceObjM.growCapLoop fuel 0 1 = none := by
    intro fuel
    induction fuel with
    | zero => rfl
    | succ n ih => simpa [SliceObjM.growCapLoop] using ih
  refine ⟨hloop, ?_⟩
  intro fuel val
  simp [SliceObjM.push, SliceObjM.try_grow_vec, SliceObjM.grow_vec, emptySliceCap0,
    SliceObjM.cap, SliceObjM.len, hloop fuel]

/-- C10, evaluated at the failing input: deep-cloning a slice of length 1
and capacity 3 produces a clone whose header claims length 3 over a
1-element backing buffer (SliceObj::deep_clone sets `end: self.cap()`,
objects.rs:516), so indexed access at index 1 < len finds no element —
breaking the claimed window invariant `end <= backing length`. The original
slice, by contrast, answers every index below its length. -/
theorem C10_deep_clone_breaks_window_invariant :
    deep_clone 9 heapShortSlice (.Slice 1) = some (.Slice 3, heapShortSlice') ∧
    sliceGetH heapShortSlice 1 0 = some (some (.Int 1)) ∧
    sliceLenH heapShortSlice' 3 = some 3 ∧
    sliceGetH heapShortSlice' 3 1 = some none := by
  refine ⟨by decide, rfl, rfl, rfl⟩

/-- C9: storing to the blank left-hand side returns before emitting: the
function's code and position streams (and the patch list) come back exactly
as they went in, for every function state, rhs index, folded operator,
operand type and position. -/
theorem C9_blank_store_is_noop :
    ∀ (f : FunctionValM) (rhs : Int) (op : Option (OpcodeM × Option ValueTypeM))
      (patch : Option (PkgVarPairs × Nat)) (typ : ValueTypeM) (p : Option Nat),
      emit_store f (.Primitive .Blank) rhs op patch typ p
        = some (f, patch.map Prod.fst) := by
  intro f rhs op patch typ p
  rfl

/-- C8: a fresh package is not inited; set_inited makes it inited and
discards the constructor-to-variable mapping; and no operation on an inited
package ever observes `inited = false` again — every step that succeeds
preserves it. -/
theorem C8_inited_flips_once :
    (∀ name, (PackageVal.new name).inited = false) ∧
    (∀ p : PackageVal, p.set_inited.inited = true ∧ p.set_inited.var_mapping = none) ∧
    (∀ (p : PackageVal) (op : PkgOp) (p' : PackageVal),
      p.inited = true → pkgStep op p = some p' → p'.inited = true) := by
  refine ⟨fun _ => rfl, fun p => ⟨rfl, rfl⟩, ?_⟩
  intro p op p' hin hstep
  have hvm : p.var_mapping = none := Option.isNone_iff_eq_none.mp hin
  cases op with
  | addMember n v =>
    simp only [pkgStep, Option.some_inj] at hstep
    subst hstep
    simpa [PackageVal.inited, PackageVal.add_member] using hin
  | addVarMapping n i =>
    rcases hg : hashGet p.member_indices n with _ | idx <;>
      simp [pkgStep, PackageVal.add_var_mapping, hg, hvm] at hstep
  | setInited =>
    simp only [pkgStep, Option.some_inj] at hstep
    subst hstep
    rfl
  | setMember i v =>
    simp only [pkgStep, PackageVal.member_set] at hstep
    split at hstep
    · simp only [Option.some_inj] at hstep
      subst hstep
      simpa [PackageVal.inited] using hin
    · exact absurd hstep (by simp)

/-- C8 witness: adding a member to an inited package keeps it inited. -/
theorem C8_inited_flips_once_witness :
    PackageVal.inited
      { name := "a", members := [.Int 1], member_indices := [("x", 0)],
        var_mapping := none } = true :=
  C8_inited_flips_once.2.2 ((PackageVal.new "a").set_inited)
    (.addMember "x" (.Int 1))
    { name := "a", members := [.Int 1], member_indices := [("x", 0)],
      var_mapping := none }
    (by decide) (by decide)

/-- The next-to-last entry of a heap extended by two allocations. -/
theorem concat_two_get_first (h : Heap) (x y : HeapObj) :
    (h ++ [x, y])[h.length]? = some x := by
  rw [List.getElem?_append_right (Nat.le_refl _)]
  simp

/-- The last entry of a heap extended by two allocations. -/
theorem concat_two_get_last (h : Heap) (x y : HeapObj) :
    (h ++ [x, y])[h.length + 1]? = some y := by
  have he : h ++ [x, y] = (h ++ [x]) ++ [y] := by simp
  have hl : (h ++ [x]).length = h.length + 1 := by simp
  rw [he, ← hl]
  exact List.getElem?_concat_length _ _

/-- C5: on every map with a live table, `get` of an absent key returns the
configured default and hands back the untouched heap (the key stays absent,
the length stays put); `touch_key` of an absent key inserts the default, so
the following containment check succeeds; and `insert` then `get`
round-trips the exact value. -/
theorem C5_map_get_touch_insert :
    (∀ (h : Heap) (a ta : Addr) (m : GosMetadata) (dflt k : GosValue)
       (entries : List (GosValue × GosValue)),
       h[a]? = some (.HMapObj m dflt (some ta)) →
       h[ta]? = some (.HTable entries) →
       hashGet entries k = none →
       MapObj.get h a k = some (dflt, h) ∧ MapObj.try_get h a k = some none ∧
         MapObj.len h a = some entries.length) ∧
    (∀ (h : Heap) (a ta : Addr) (m : GosMetadata) (dflt k : GosValue)
       (entries : List (GosValue × GosValue)) (h' : Heap),
       h[a]? = some (.HMapObj m dflt (some ta)) →
       h[ta]? = some (.HTable entries) →
       hashGet entries k = none →
       MapObj.touch_key h a k = some h' →
       MapObj.try_get h' a k = some (some dflt)) ∧
    (∀ (h : Heap) (a ta : Addr) (m : GosMetadata) (dflt k v : GosValue)
       (entries : List (GosValue × GosValue)) (old : Option GosValue) (h' : Heap),
       h[a]? = some (.HMapObj m dflt (some ta)) →
       h[ta]? = some (.HTable entries) →
       MapObj.insert h a k v = some (old, h') →
       MapObj.get h' a k = some (v, h')) := by
  refine ⟨?_, ?_, ?_⟩
  · intro h a ta m dflt k entries ha hta hget
    refine ⟨?_, ?_, ?_⟩ <;> simp [MapObj.get, MapObj.try_get, MapObj.len, ha, hta, hget]
  · intro h a ta m dflt k entries h' ha hta hget htouch
    have hne : a ≠ ta := by
      intro e
      rw [e, hta] at ha
      cases ha
    have hlt : ta < h.length := by
      by_contra hc
      push_neg at hc
      rw [List.getElem?_eq_none_iff.mpr hc] at hta
      cases hta
    simp only [MapObj.touch_key, ha, hta, hget] at htouch
    have hh' : h' = h.set ta (.HTable (hashInsert entries k dflt)) := by
      exact (Option.some_inj.mp htouch).symm
    subst hh'
    have hga : (h.set ta (.HTable (hashInsert entries k dflt)))[a]? = h[a]? :=
      List.getElem?_set_ne (fun e => hne e.symm)
    have hgt : (h.set ta (.HTable (hashInsert entries k dflt)))[ta]?
        = some (.HTable (hashInsert entries k dflt)) :=
      List.getElem?_set_eq hlt
    simp [MapObj.try_get, hga, ha, hgt, hashGet_hashInsert]
  · intro h a ta m dflt k v entries old h' ha hta hins
    have hne : a ≠ ta := by
      intro e
      rw [e, hta] at ha
      cases ha
    have hlt : ta < h.length := by
      by_contra hc
      push_neg at hc
      rw [List.getElem?_eq_none_iff.mpr hc] at hta
      cases hta
    simp only [MapObj.insert, ha, hta, Option.some_inj] at hins
    have hh' : h' = h.set ta (.HTable (hashInsert entries k v)) := by
      have := congrArg Prod.snd hins
      simpa using this.symm
    subst hh'
    have hga : (h.set ta (.HTable (hashInsert entries k v)))[a]? = h[a]? :=
      List.getElem?_set_ne (fun e => hne e.symm)
    have hgt : (h.set ta (.HTable (hashInsert entries k v)))[ta]?
        = some (.HTable (hashInsert entries k v)) :=
      List.getElem?_set_eq hlt
    simp [MapObj.get, hga, ha, hgt, hashGet_hashInsert]

/-- C5 witness: on the one-entry map `{5 ↦ 6}` with default 0, `get 7`
returns the default with the heap untouched; `touch_key 7` makes `try_get 7`
succeed; `insert 5 9` then `get 5` returns 9. -/
theorem C5_map_get_touch_insert_witness :
    (MapObj.get heapOneMap 0 (.Int 7) = some (.Int 0, heapOneMap) ∧
      MapObj.try_get heapOneMap 0 (.Int 7) = some none ∧
      MapObj.len heapOneMap 0 = some 1) ∧
    MapObj.try_get
      [.HMapObj .Untyped (.Int 0) (some 1), .HTable [(.Int 5, .Int 6), (.Int 7, .Int 0)]]
      0 (.Int 7) = some (some (.Int 0)) ∧
    MapObj.get [.HMapObj .Untyped (.Int 0) (some 1), .HTable [(.Int 5, .Int 9)]]
      0 (.Int 5)
      = some (.Int 9, [.HMapObj .Untyped (.Int 0) (some 1), .HTable [(.Int 5, .Int 9)]]) :=
  ⟨C5_map_get_touch_insert.1 heapOneMap 0 1 .Untyped (.Int 0) (.Int 7)
      [(.Int 5, .Int 6)] rfl rfl rfl,
   C5_map_get_touch_insert.2.1 heapOneMap 0 1 .Untyped (.Int 0) (.Int 7)
      [(.Int 5, .Int 6)]
      [.HMapObj .Untyped (.Int 0) (some 1), .HTable [(.Int 5, .Int 6), (.Int 7, .Int 0)]]
      rfl rfl rfl rfl,
   C5_map_get_touch_insert.2.2 heapOneMap 0 1 .Untyped (.Int 0) (.Int 5) (.Int 9)
      [(.Int 5, .Int 6)] (some (.Int 6))
      [.HMapObj .Untyped (.Int 0) (some 1), .HTable [(.Int 5, .Int 9)]]
      rfl rfl rfl⟩

/-- C6: for every slice descriptor, `zero_val` materializes a freshly
allocated nil slice (its backing is `None`), while `default_val`
materializes a freshly allocated non-nil slice of length 0 with a backing
buffer; both allocations are new (their addresses lie at or past the end of
the incoming heap). -/
theorem C6_slice_zero_nil_default_empty :
    ∀ (A : Arena) (k : Nat) (em : GosMetadata) (sz : Nat) (h : Heap) (n : Nat),
      A[k]? = some (.SliceOrArray em sz) →
      zero_val_impl A (n + 1) (.NonPtr k .Default) h
        = some (.Slice h.length, h ++ [.HSliceObj (.NonPtr k .Default) 0 0 0 none]) ∧
      sliceIsNilH (h ++ [.HSliceObj (.NonPtr k .Default) 0 0 0 none]) h.length
        = some true ∧
      default_val A (n + 1) (.NonPtr k .Default) h
        = some (.Slice (h.length + 1),
            h ++ [.HVec [], .HSliceObj (.NonPtr k .Default) 0 0 0 (some h.length)]) ∧
      sliceIsNilH (h ++ [.HVec [], .HSliceObj (.NonPtr k .Default) 0 0 0 (some h.length)])
        (h.length + 1) = some false ∧
      sliceLenH (h ++ [.HVec [], .HSliceObj (.NonPtr k .Default) 0 0 0 (some h.length)])
        (h.length + 1) = some 0 := by
  intro A k em sz h n hA
  refine ⟨?_, ?_, ?_, ?_, ?_⟩
  · simp [zero_val_impl, hA, new_slice_nil, alloc]
  · simp [sliceIsNilH, List.getElem?_concat_length]
  · simp [default_val, hA, new_slice, alloc]
  · rw [sliceIsNilH, concat_two_get_last]
    rfl
  · rw [sliceLenH, concat_two_get_last]

/-- C6 witness: over an empty heap and a one-entry arena holding a slice
definition, the zero value is the nil slice at fresh address 0 and the
default value is the empty non-nil slice at fresh address 1. -/
theorem C6_slice_zero_nil_default_empty_witness :
    zero_val_impl [.SliceOrArray .Untyped 0] 1 (.NonPtr 0 .Default) []
      = some (.Slice 0, [.HSliceObj (.NonPtr 0 .Default) 0 0 0 none]) ∧
    sliceIsNilH [.HSliceObj (.NonPtr 0 .Default) 0 0 0 none] 0 = some true ∧
    default_val [.SliceOrArray .Untyped 0] 1 (.NonPtr 0 .Default) []
      = some (.Slice 1, [.HVec [], .HSliceObj (.NonPtr 0 .Default) 0 0 0 (some 0)]) ∧
    sliceIsNilH [.HVec [], .HSliceObj (.NonPtr 0 .Default) 0 0 0 (some 0)] 1
      = some false ∧
    sliceLenH [.HVec [], .HSliceObj (.NonPtr 0 .Default) 0 0 0 (some 0)] 1 = some 0 :=
  C6_slice_zero_nil_default_empty [.SliceOrArray .Untyped 0] 0 .Untyped 0 [] 0 rfl

/-- Deep cloning only appends allocations: the incoming heap is a prefix of
the outgoing one. -/
theorem deep_clone_extends : ∀ n : Nat,
    (∀ h v r, deep_clone n h v = some r → h <+: r.2) ∧
    (∀ h l r, deep_clone_list n h l = some r → h <+: r.2) ∧
    (∀ h ps r, deep_clone_pairs n h ps = some r → h <+: r.2) := by
  intro n
  induction n with
  | zero =>
    refine ⟨?_, ?_, ?_⟩ <;> intro h x r heq <;>
      simp [deep_clone, deep_clone_list, deep_clone_pairs] at heq
  | succ n ih =>
    obtain ⟨ihv, ihl, ihp⟩ := ih
    refine ⟨?_, ?_, ?_⟩
    · intro h v r heq
      cases v
      case Struct a =>
        simp only [deep_clone, alloc] at heq
        split at heq
        · split at heq
          next fields' h1 hcl =>
            cases heq
            exact (ihl h _ _ hcl).trans (List.prefix_append _ _)
          next => cases heq
        · cases heq
      case Array a =>
        simp only [deep_clone, alloc] at heq
        split at heq
        · split at heq
          · split at heq
            next elems' h1 hcl =>
              cases heq
              exact (ihl h _ _ hcl).trans
                ((List.prefix_append _ _).trans (List.prefix_append _ _))
            next => cases heq
          · cases heq
        · cases heq
      case Slice a =>
        simp only [deep_clone, alloc] at heq
        split at heq
        · split at heq
          · cases heq
            exact List.prefix_append _ _
          · split at heq
            · split at heq
              · split at heq
                next win' h1 hcl =>
                  cases heq
                  exact (ihl h _ _ hcl).trans
                    ((List.prefix_append _ _).trans (List.prefix_append _ _))
                next => cases heq
              · cases heq
            · cases heq
        · cases heq
      case Map a =>
        simp only [deep_clone, alloc] at heq
        split at heq
        · split at heq
          · cases heq
            exact List.prefix_append _ _
          · split at heq
            · split at heq
              next entries' h1 hcl =>
                cases heq
                exact (ihp h _ _ hcl).trans
                  ((List.prefix_append _ _).trans (List.prefix_append _ _))
              next => cases heq
            · cases heq
        · cases heq
      case Named inner m =>
        simp only [deep_clone] at heq
        split at heq
        next inner' h1 hin =>
          cases heq
          exact ihv h inner (inner', h1) hin
        next => cases heq
      all_goals
        simp only [deep_clone] at heq
        cases heq
        exact List.prefix_rfl
    · intro h l r heq
      cases l
      case nil =>
        simp only [deep_clone_list] at heq
        cases heq
        exact List.prefix_rfl
      case cons v vs =>
        simp only [deep_clone_list] at heq
        split at heq
        next v' h1 hv =>
          split at heq
          next vs' h2 hvs =>
            cases heq
            exact (ihv h v (v', h1) hv).trans (ihl h1 vs (vs', h2) hvs)
          next => cases heq
        next => cases heq
    · intro h ps r heq
      cases ps
      case nil =>
        simp only [deep_clone_pairs] at heq
        cases heq
        exact List.prefix_rfl
      case cons p rest =>
        obtain ⟨k, v⟩ := p
        simp only [deep_clone_pairs] at heq
        split at heq
        next k' h1 hk =>
          split at heq
          next v' h2 hv =>
            split at heq
            next rest' h3 hrest =>
              cases heq
              exact ((ihv h k (k', h1) hk).trans (ihv h1 v (v', h2) hv)).trans
                (ihp h2 rest (rest', h3) hrest)
            next => cases heq
          next => cases heq
        next => cases heq


/-- Fresh-clone lemma: the composite `deep_clone` returns, together with its
backing buffer/table, lives entirely past the end of the incoming heap. -/
theorem deep_clone_fresh (n : Nat) (h : Heap) (v v' : GosValue) (h' : Heap)
    (heq : deep_clone n h v = some (v', h')) : cloneFresh h.length h' v' := by
  cases n with
  | zero => simp [deep_clone] at heq
  | succ n =>
    cases v
    case Struct a =>
      simp only [deep_clone, alloc] at heq
      split at heq
      · split at heq
        next fields' h1 hcl =>
          simp only [Option.some_inj, Prod.mk.injEq] at heq
          obtain ⟨rfl, rfl⟩ := heq
          have hlen := ((deep_clone_extends n).2.1 h _ _ hcl).length_le
          simpa [cloneFresh] using hlen
        next => cases heq
      · cases heq
    case Array a =>
      simp only [deep_clone, alloc] at heq
      split at heq
      · split at heq
        · split at heq
          next elems' h1 hcl =>
            simp only [Option.some_inj, Prod.mk.injEq] at heq
            obtain ⟨rfl, rfl⟩ := heq
            have hlen : h.length ≤ h1.length := by
              simpa using ((deep_clone_extends n).2.1 h _ _ hcl).length_le
            constructor
            · simp only [List.length_append, List.length_cons, List.length_nil]
              omega
            · intro m2 va hget
              rw [List.getElem?_concat_length] at hget
              simp only [Option.some_inj, HeapObj.HArrayObj.injEq] at hget
              obtain ⟨_, hva⟩ := hget
              exact hva ▸ hlen
          next => cases heq
        · cases heq
      · cases heq
    case Slice a =>
      simp only [deep_clone, alloc] at heq
      split at heq
      · split at heq
        · simp only [Option.some_inj, Prod.mk.injEq] at heq
          obtain ⟨rfl, rfl⟩ := heq
          constructor
          · exact Nat.le_refl _
          · intro m2 b2 e2 c2 va hget
            rw [List.getElem?_concat_length] at hget
            simp only [Option.some_inj, HeapObj.HSliceObj.injEq] at hget
            exact absurd hget.2.2.2.2 (by simp)
        · split at heq
          · split at heq
            · split at heq
              next win' h1 hcl =>
                simp only [Option.some_inj, Prod.mk.injEq] at heq
                obtain ⟨rfl, rfl⟩ := heq
                have hlen : h.length ≤ h1.length := by
                  simpa using ((deep_clone_extends n).2.1 h _ _ hcl).length_le
                constructor
                · simp only [List.length_append, List.length_cons, List.length_nil]
                  omega
                · intro m2 b2 e2 c2 va hget
                  rw [List.getElem?_concat_length] at hget
                  simp only [Option.some_inj, HeapObj.HSliceObj.injEq] at hget
                  obtain ⟨_, _, _, _, hva⟩ := hget
                  exact hva ▸ hlen
              next => cases heq
            · cases heq
          · cases heq
      · cases heq
    case Map a =>
      simp only [deep_clone, alloc] at heq
      split at heq
      · split at heq
        · simp only [Option.some_inj, Prod.mk.injEq] at heq
          obtain ⟨rfl, rfl⟩ := heq
          constructor
          · exact Nat.le_refl _
          · intro m2 d2 ta hget
            rw [List.getElem?_concat_length] at hget
            simp only [Option.some_inj, HeapObj.HMapObj.injEq] at hget
            exact absurd hget.2.2 (by simp)
        · split at heq
          · split at heq
            next entries' h1 hcl =>
              simp only [Option.some_inj, Prod.mk.injEq] at heq
              obtain ⟨rfl, rfl⟩ := heq
              have hlen : h.length ≤ h1.length := by
                simpa using ((deep_clone_extends n).2.2 h _ _ hcl).length_le
              constructor
              · simp only [List.length_append, List.length_cons, List.length_nil]
                omega
              · intro m2 d2 ta hget
                rw [List.getElem?_concat_length] at hget
                simp only [Option.some_inj, HeapObj.HMapObj.injEq] at hget
                obtain ⟨_, _, hta⟩ := hget
                exact hta ▸ hlen
            next => cases heq
          · cases heq
      · cases heq
    case Named inner m =>
      simp only [deep_clone] at heq
      split at heq
      next inner' h1 hin =>
        simp only [Option.some_inj, Prod.mk.injEq] at heq
        obtain ⟨rfl, rfl⟩ := heq
        simp [cloneFresh]
      next => cases heq
    all_goals
      simp only [deep_clone, Option.some_inj, Prod.mk.injEq] at heq
      obtain ⟨rfl, rfl⟩ := heq
      simp [cloneFresh]

/-- Writing through a fresh composite leaves every entry below `nl`
untouched. -/
theorem applyMut_preserves_below (nl : Nat) (m : Mutation) (v : GosValue) (h h' : Heap)
    (hf : cloneFresh nl h v) (hap : applyMut m v h = some h') :
    ∀ a, a < nl → h'[a]? = h[a]? := by
  intro a ha
  cases m with
  | sliceSet i val =>
    cases v <;> try (simp only [applyMut] at hap; cases hap)
    case Slice sa =>
      simp only [applyMut] at hap
      simp only [cloneFresh] at hf
      split at hap
      next m1 b1 e1 c1 va hget =>
        have hva : nl ≤ va := hf.2 m1 b1 e1 c1 va hget
        simp only [setVecAt] at hap
        split at hap
        next elems hv =>
          split at hap
          · cases hap
            exact List.getElem?_set_ne (by omega)
          · cases hap
        next => cases hap
      next => cases hap
  | arraySet i val =>
    cases v <;> try (simp only [applyMut] at hap; cases hap)
    case Array aa =>
      simp only [applyMut] at hap
      simp only [cloneFresh] at hf
      split at hap
      next m1 va hget =>
        have hva : nl ≤ va := hf.2 m1 va hget
        simp only [setVecAt] at hap
        split at hap
        next elems hv =>
          split at hap
          · cases hap
            exact List.getElem?_set_ne (by omega)
          · cases hap
        next => cases hap
      next => cases hap
  | structSetField i val =>
    cases v <;> try (simp only [applyMut] at hap; cases hap)
    case Struct sa =>
      simp only [applyMut] at hap
      simp only [cloneFresh] at hf
      split at hap
      next m1 fields hget =>
        split at hap
        · cases hap
          exact List.getElem?_set_ne (by omega)
        · cases hap
      next => cases hap
  | mapInsert k val =>
    cases v <;> try (simp only [applyMut] at hap; cases hap)
    case Map ma =>
      simp only [applyMut] at hap
      simp only [cloneFresh] at hf
      split at hap
      next m1 d1 ta hget =>
        have hta : nl ≤ ta := hf.2 m1 d1 ta hget
        split at hap
        next entries hv =>
          cases hap
          exact List.getElem?_set_ne (by omega)
        next => cases hap
      next => cases hap

/-- Reading a value back is the same over two heaps that agree below `nl`,
provided the value and every heap entry below `nl` only reference addresses
below `nl`. -/
theorem readBack_agree (nl : Nat) (h h₂ : Heap)
    (hag : ∀ a, a < nl → h₂[a]? = h[a]?)
    (hcl : ∀ a o, a < nl → h[a]? = some o → objClosed nl o = true) :
    ∀ fuel : Nat,
      (∀ v, valClosed nl v = true → readBack fuel h₂ v = readBack fuel h v) ∧
      (∀ l, l.all (valClosed nl) = true → readBackList fuel h₂ l = readBackList fuel h l) ∧
      (∀ ps, ps.all (fun p => valClosed nl p.1 && valClosed nl p.2) = true →
        readBackPairs fuel h₂ ps = readBackPairs fuel h ps) := by
  intro fuel
  induction fuel with
  | zero => exact ⟨fun v _ => rfl, fun l _ => rfl, fun ps _ => rfl⟩
  | succ n ih =>
    obtain ⟨ihv, ihl, ihp⟩ := ih
    refine ⟨?_, ?_, ?_⟩
    · intro v hv
      cases v
      case Struct a =>
        have ha : a < nl := by simpa [valClosed] using hv
        rw [readBack, readBack, hag a ha]
        rcases hga : h[a]? with _ | o
        · rfl
        · cases o <;> try rfl
          case HStruct m1 fields =>
            have hobj := hcl a _ ha hga
            simp only [objClosed] at hobj
            dsimp only
            rw [ihl fields hobj]
      case Array a =>
        have ha : a < nl := by simpa [valClosed] using hv
        rw [readBack, readBack, hag a ha]
        rcases hga : h[a]? with _ | o
        · rfl
        · cases o <;> try rfl
          case HArrayObj m1 va =>
            have hobj := hcl a _ ha hga
            simp only [objClosed, decide_eq_true_eq] at hobj
            dsimp only
            rw [hag va hobj]
            rcases hgv : h[va]? with _ | o2
            · rfl
            · cases o2 <;> try rfl
              case HVec elems =>
                have hobj2 := hcl va _ hobj hgv
                simp only [objClosed] at hobj2
                dsimp only
                rw [ihl elems hobj2]
      case Slice a =>
        have ha : a < nl := by simpa [valClosed] using hv
        rw [readBack, readBack, hag a ha]
        rcases hga : h[a]? with _ | o
        · rfl
        · cases o <;> try rfl
          case HSliceObj m1 b1 e1 c1 ov =>
            have hobj := hcl a _ ha hga
            simp only [objClosed] at hobj
            cases ov with
            | none => rfl
            | some va =>
              simp only [Option.all_some, decide_eq_true_eq] at hobj
              dsimp only
              rw [hag va hobj]
              rcases hgv : h[va]? with _ | o2
              · rfl
              · cases o2 <;> try rfl
                case HVec elems =>
                  have hobj2 := hcl va _ hobj hgv
                  simp only [objClosed] at hobj2
                  dsimp only
                  rw [ihl elems hobj2]
      case Map a =>
        have ha : a < nl := by simpa [valClosed] using hv
        rw [readBack, readBack, hag a ha]
        rcases hga : h[a]? with _ | o
        · rfl
        · cases o <;> try rfl
          case HMapObj m1 d1 ot =>
            have hobj := hcl a _ ha hga
            simp only [objClosed, Bool.and_eq_true] at hobj
            dsimp only
            rw [ihv d1 hobj.1]
            cases hrd : readBack n h d1 with
            | none => rfl
            | some d' =>
              cases ot with
              | none => rfl
              | some ta =>
                have hta : ta < nl := by
                  have := hobj.2
                  simpa [Option.all_some, decide_eq_true_eq] using this
                dsimp only
                rw [hag ta hta]
                rcases hgt : h[ta]? with _ | o2
                · rfl
                · cases o2 <;> try rfl
                  case HTable entries =>
                    have hobj2 := hcl ta _ hta hgt
                    simp only [objClosed] at hobj2
                    dsimp only
                    rw [ihp entries hobj2]
      case Named inner m =>
        have hin : valClosed nl inner = true := by simpa [valClosed] using hv
        rw [readBack, readBack, ihv inner hin]
      all_goals rfl
    · intro l hl
      cases l with
      | nil => rfl
      | cons v vs =>
        simp only [List.all_cons, Bool.and_eq_true] at hl
        rw [readBackList, readBackList, ihv v hl.1]
        cases readBack n h v with
        | none => rfl
        | some p =>
          dsimp only
          rw [ihl vs hl.2]
    · intro ps hps
      cases ps with
      | nil => rfl
      | cons p rest =>
        obtain ⟨k, v⟩ := p
        simp only [List.all_cons, Bool.and_eq_true] at hps
        rw [readBackPairs, readBackPairs, ihv k hps.1.1]
        cases readBack n h k with
        | none => rfl
        | some pk =>
          dsimp only
          rw [ihv v hps.1.2]
          cases readBack n h v with
          | none => rfl
          | some pv =>
            dsimp only
            rw [ihp rest hps.2]

/-- Entries of a closed heap are closed objects. -/
theorem heapClosed_entry (h : Heap) (hc : heapClosed h = true) :
    ∀ a o, a < h.length → h[a]? = some o → objClosed h.length o = true := by
  intro a o _ hget
  exact List.all_eq_true.mp hc o (List.getElem?_mem hget)

/-- C4: over a closed heap, deep-clone a value, then apply any mutation
(set a slice/array element, set a struct field, insert a map key) to the
clone: the original value reads back exactly as before, at every read
depth. And deep_clone of an immutable primitive is the value itself, with
no new allocation. -/
theorem C4_deep_clone_isolation :
    (∀ (h : Heap) (v : GosValue) (fuel : Nat) (v' : GosValue) (h' : Heap)
       (m : Mutation) (h'' : Heap),
       heapClosed h = true → valClosed h.length v = true →
       deep_clone fuel h v = some (v', h') →
       applyMut m v' h' = some h'' →
       ∀ f2 : Nat, readBack f2 h'' v = readBack f2 h v) ∧
    (∀ (v : GosValue) (h : Heap) (fuel : Nat),
       isPrimitive v = true → deep_clone (fuel + 1) h v = some (v, h)) := by
  constructor
  · intro h v fuel v' h' m h'' hhc hvc hclone happ f2
    have hpre : h <+: h' := (deep_clone_extends fuel).1 h v (v', h') hclone
    have hfresh : cloneFresh h.length h' v' := deep_clone_fresh fuel h v v' h' hclone
    have hagree : ∀ a, a < h.length → h''[a]? = h[a]? := by
      intro a ha
      rw [applyMut_preserves_below h.length m v' h' h'' hfresh happ a ha,
        prefix_get_eq hpre ha]
    exact (readBack_agree h.length h h'' hagree (heapClosed_entry h hhc) f2).1 v hvc
  · intro v h fuel hpr
    cases v <;> first | rfl | simp [isPrimitive] at hpr

/-- C4 witness: clone a one-field struct, overwrite the clone's field; the
original still reads back as `{1}`. A primitive int deep-clones to itself
over the untouched heap. -/
theorem C4_deep_clone_isolation_witness :
    heapClosed heapOneStruct = true ∧
    deep_clone 3 heapOneStruct (.Struct 0) = some (.Struct 1, heapOneStruct') ∧
    applyMut (.structSetField 0 (.Int 42)) (.Struct 1) heapOneStruct'
      = some heapOneStruct'' ∧
    readBack 3 heapOneStruct (.Struct 0) = some (.pStruct [.prim (.Int 1)]) ∧
    readBack 3 heapOneStruct'' (.Struct 0) = readBack 3 heapOneStruct (.Struct 0) ∧
    deep_clone 1 heapOneStruct (.Int 7) = some (.Int 7, heapOneStruct) :=
  ⟨by decide, by decide, by decide, rfl,
   C4_deep_clone_isolation.1 heapOneStruct (.Struct 0) 3 (.Struct 1) heapOneStruct'
     (.structSetField 0 (.Int 42)) heapOneStruct'' (by decide) (by decide) (by decide)
     (by decide) 3,
   C4_deep_clone_isolation.2 (.Int 7) heapOneStruct 0 (by decide)⟩

end Goscript
